import Mathlib

/-!
Verification development for the deltafi-dex-v1 AMM pricing core.

The oracle resolver (`get_pyth_price`, `calculate_serum_market_price`) and the
swap pipeline are embedded from `src/deltafi-dex-v1/src/processor.rs`.
The fixed-point `Decimal` library (`math.rs`), the `PoolState`/`Fees` internals
(`state.rs`) and the bonding curve (`curve.rs`) are not part of the provided
sources; those definitions are modelled from the specification and are marked
as such in their doc comments.

Machine integers are modelled as `Nat`/`Int` with explicit range checks at the
points where the Rust code uses checked arithmetic.
-/

/-- Scale of the fixed-point representation: 10^18 (spec glossary, WAD). -/
def WAD : Nat := 10 ^ 18

/-- Largest value of the 192-bit backing integer of `Decimal`. -/
def U192_MAX : Nat := 2 ^ 192 - 1

/-- Largest `u64` value. -/
def U64_MAX : Nat := 2 ^ 64 - 1

/-- Largest `i64` value. -/
def I64_MAX : Int := 2 ^ 63 - 1

/-- Smallest `i64` value. -/
def I64_MIN : Int := -(2 ^ 63)

/-- Error type of the pricing core.  The variants below are the ones reachable
from the embedded code paths.  `error.rs` is not part of the provided sources;
the variant names follow the spec's failure taxonomy (§4.2, §7).
`SwapOutLimitExceeded` and `RejectedMarketPriceUpdate` are modelled from the
spec for the two checks whose bodies live in the missing `state.rs`. -/
inductive SwapError where
  | CalculationFailure
  | InvalidPythConfig
  | StalePythPrice
  | InconfidentPythPrice
  | UnstableMarketPrice
  | ExceededSlippage
  | SwapOutLimitExceeded
  | RejectedMarketPriceUpdate
  | InvalidSerumData
  deriving DecidableEq, Repr

/-- Modelled from the spec: the fixed-point `Decimal` type of the missing
`math.rs` — a non-negative rational stored as an integer scaled by WAD = 10^18,
held in a 192-bit integer (§3, §4.1). -/
structure Decimal where
  val : Nat
  deriving DecidableEq, Repr

namespace Decimal

/-- Modelled from the spec: `Decimal::from(integer)` — exact conversion,
scaling by WAD (§4.1). -/
def from_nat (n : Nat) : Decimal := ⟨n * WAD⟩

/-- Modelled from the spec: `Decimal::from_scaled_val` — reinterprets an
already-scaled integer (§4.1). -/
def from_scaled_val (n : Nat) : Decimal := ⟨n⟩

/-- Modelled from the spec: `Decimal::zero()`. -/
def zero : Decimal := ⟨0⟩

/-- Modelled from the spec: `Decimal::one()`. -/
def one : Decimal := ⟨WAD⟩

/-- Modelled from the spec: checked addition; overflow beyond the 192-bit
backing integer is a `CalculationFailure` (§4.1). -/
def try_add (a b : Decimal) : Except SwapError Decimal :=
  if a.val + b.val ≤ U192_MAX then .ok ⟨a.val + b.val⟩
  else .error .CalculationFailure

/-- Modelled from the spec: checked subtraction; underflow below zero is a
`CalculationFailure` (§4.1). -/
def try_sub (a b : Decimal) : Except SwapError Decimal :=
  if b.val ≤ a.val then .ok ⟨a.val - b.val⟩
  else .error .CalculationFailure

/-- Modelled from the spec: checked multiplication with truncating
renormalization by WAD (§4.1). -/
def try_mul (a b : Decimal) : Except SwapError Decimal :=
  if a.val * b.val ≤ U192_MAX then .ok ⟨a.val * b.val / WAD⟩
  else .error .CalculationFailure

/-- Modelled from the spec: checked division, truncating toward zero; division
by zero is a `CalculationFailure` (§4.1). -/
def try_div (a b : Decimal) : Except SwapError Decimal :=
  if b.val = 0 then .error .CalculationFailure
  else if a.val * WAD ≤ U192_MAX then .ok ⟨a.val * WAD / b.val⟩
  else .error .CalculationFailure

end Decimal

/-- Checked `u64` subtraction (`checked_sub`): fails when the subtrahend is
larger. -/
def u64_checked_sub (a b : Nat) : Option Nat :=
  if b ≤ a then some (a - b) else none

/-- Checked `u64` multiplication (`checked_mul`). -/
def u64_checked_mul (a b : Nat) : Option Nat :=
  if a * b ≤ U64_MAX then some (a * b) else none

/-- Checked `u64` power (`checked_pow`). -/
def u64_checked_pow (a b : Nat) : Option Nat :=
  if a ^ b ≤ U64_MAX then some (a ^ b) else none

/-- Checked `i64` subtraction (`checked_sub`). -/
def i64_checked_sub (a b : Int) : Option Int :=
  if I64_MIN ≤ a - b ∧ a - b ≤ I64_MAX then some (a - b) else none

/-- Checked `i64` multiplication (`checked_mul`). -/
def i64_checked_mul (a b : Int) : Option Int :=
  if I64_MIN ≤ a * b ∧ a * b ≤ I64_MAX then some (a * b) else none

/-- Pyth price account types (`pyth.rs`, `PriceType`). -/
inductive PriceType where
  | Unknown
  | Price
  deriving DecidableEq, Repr

/-- Pyth price status (`pyth.rs`, `PriceStatus`). -/
inductive PriceStatus where
  | Unknown
  | Trading
  | Halted
  | Auction
  deriving DecidableEq, Repr

/-- Pyth per-source price information (`pyth.rs`, `PriceInfo`): aggregate
price (i64), confidence (u64), status, publish slot. -/
structure PriceInfo where
  price : Int
  conf : Nat
  status : PriceStatus
  pub_slot : Nat
  deriving DecidableEq, Repr

/-- Pyth publisher component (`pyth.rs`, `PriceComp`); only the aggregate
side is consulted by the embedded code (`is_active`). -/
structure PriceComp where
  agg : PriceInfo
  latest : PriceInfo
  deriving DecidableEq, Repr

/-- `PriceComp::is_active` (`pyth.rs`): the component's aggregate status is
`Trading`. -/
def PriceComp.is_active (c : PriceComp) : Bool :=
  c.agg.status = PriceStatus.Trading

/-- Pyth price account (`pyth.rs`, `Price`): the fields consulted by
`get_pyth_price`. -/
structure PythPrice where
  ptype : PriceType
  expo : Int
  valid_slot : Nat
  prev_price : Int
  agg : PriceInfo
  comp : List PriceComp
  deriving DecidableEq, Repr

/-- Confidence-interval guard of `get_pyth_price` (processor.rs:2499-2513):
when the confidence is positive and `price < conf * 50` (checked), the price
is rejected as `InconfidentPythPrice`. -/
def pyth_conf_check (price conf : Nat) : Except SwapError Unit :=
  if 0 < conf then
    match u64_checked_mul conf 50 with
    | none => .error .CalculationFailure
    | some c50 => if price < c50 then .error .InconfidentPythPrice else .ok ()
  else .ok ()

/-- Volatility guard of `get_pyth_price` (processor.rs:2515-2527): the
aggregate price must not be below `|prev_price - price| * 100` (checked i64
arithmetic, absolute value taken on the checked difference). -/
def pyth_vol_check (p : PythPrice) : Except SwapError Unit :=
  match i64_checked_sub p.prev_price p.agg.price with
  | none => .error .CalculationFailure
  | some d =>
    match i64_checked_mul (Int.natAbs d) 100 with
    | none => .error .CalculationFailure
    | some m => if p.agg.price < m then .error .UnstableMarketPrice else .ok ()

/-- Exponent normalization of `get_pyth_price` (processor.rs:2529-2549): a
non-negative exponent multiplies by 10^expo, a negative one divides by
10^(-expo), both via checked powers of ten. -/
def pyth_normalize (price : Nat) (expo : Int) : Except SwapError Decimal :=
  if 0 ≤ expo then
    match u64_checked_pow 10 expo.toNat with
    | none => .error .CalculationFailure
    | some zeros => (Decimal.from_nat price).try_mul (Decimal.from_nat zeros)
  else
    if expo = -(2 ^ 31) then .error .CalculationFailure
    else
      match u64_checked_pow 10 (-expo).toNat with
      | none => .error .CalculationFailure
      | some decimals => (Decimal.from_nat price).try_div (Decimal.from_nat decimals)

/-- Guard-and-normalize tail of `get_pyth_price` (processor.rs:2499-2551),
reached once the aggregate price is known non-negative: confidence guard,
volatility guard, exponent normalization, and the returned valid slot
`min(current_slot, valid_slot)`. -/
def pyth_price_tail (p : PythPrice) (current_slot : Nat) :
    Except SwapError (Decimal × Nat) := do
  let price := p.agg.price.toNat
  let _ ← pyth_conf_check price p.agg.conf
  let _ ← pyth_vol_check p
  let market_price ← pyth_normalize price p.expo
  pure (market_price, min current_slot p.valid_slot)

/-- `get_pyth_price` (processor.rs:2451-2552): validates type, status,
publisher quorum, staleness, sign, confidence and volatility, then normalizes
the aggregate price by the account's exponent; returns the price and
`min(current_slot, valid_slot)`. -/
def get_pyth_price (p : PythPrice) (current_slot : Nat) :
    Except SwapError (Decimal × Nat) :=
  if p.ptype ≠ PriceType.Price then .error .InvalidPythConfig
  else if p.agg.status ≠ PriceStatus.Trading then .error .InvalidPythConfig
  else if (p.comp.filter PriceComp.is_active).length < 3 then
    .error .InvalidPythConfig
  else
    match u64_checked_sub current_slot p.valid_slot with
    | none => .error .CalculationFailure
    | some slots_elapsed =>
      if 10 ≤ slots_elapsed then .error .StalePythPrice
      else if p.agg.price < 0 then .error .InvalidPythConfig
      else pyth_price_tail p current_slot

/-- `calculate_serum_market_price` (processor.rs:2554-2587): mid price of the
top bid/ask in lots, converted by lot sizes and token decimals in `Decimal`
arithmetic. -/
def calculate_serum_market_price (base_lot_size quote_lot_size : Nat)
    (bids_price_lots asks_price_lots : Nat)
    (base_decimals quote_decimals : Nat) : Except SwapError Decimal :=
  match u64_checked_pow 10 base_decimals with
  | none => .error .CalculationFailure
  | some base_multiplier =>
    match u64_checked_pow 10 quote_decimals with
    | none => .error .CalculationFailure
    | some quote_multiplier => do
      let sum ← (Decimal.from_nat bids_price_lots).try_add
        (Decimal.from_nat asks_price_lots)
      let market_price_lots ← sum.try_div (Decimal.from_nat 2)
      let market_price_numerator ← (Decimal.from_nat quote_lot_size).try_mul
        (Decimal.from_nat base_multiplier)
      let market_price_denominator ← (Decimal.from_nat base_lot_size).try_mul
        (Decimal.from_nat quote_multiplier)
      let scaled ← market_price_lots.try_mul market_price_numerator
      scaled.try_div market_price_denominator

/-- Swap directions (spec §3; `SwapDirection` in the missing `state.rs`):
which reserve receives the input. -/
inductive SwapDirection where
  | SellBase
  | SellQuote
  deriving DecidableEq, Repr

/-- Pool state (spec §3): market price, slope, the two reserves, share supply
and the last accepted oracle checkpoint. `state.rs` is not under `src/`; the
field list follows the spec's data model. -/
structure PoolState where
  market_price : Decimal
  slope : Decimal
  base_reserve : Decimal
  quote_reserve : Decimal
  total_supply : Nat
  last_market_price : Decimal
  last_valid_market_price_slot : Nat
  deriving DecidableEq, Repr

/-- Fee rates (spec §3): numerator/denominator pairs for the trade fee, the
admin share of the trade fee, the withdraw fee and the admin share of the
withdraw fee. `state.rs` is not under `src/`. -/
structure Fees where
  trade_fee_numerator : Nat
  trade_fee_denominator : Nat
  admin_trade_fee_numerator : Nat
  admin_trade_fee_denominator : Nat
  withdraw_fee_numerator : Nat
  withdraw_fee_denominator : Nat
  admin_withdraw_fee_numerator : Nat
  admin_withdraw_fee_denominator : Nat
  deriving DecidableEq, Repr

/-- Modelled from the spec: `Fees::trade_fee` of the missing `state.rs` —
`trade_fee = receive_amount * trade_fee_rate` with the rate a
numerator/denominator pair and truncating division (§4.1, §4.4), checked to
fit back into a `u64`. -/
def Fees.trade_fee (f : Fees) (amount : Nat) : Except SwapError Nat :=
  if f.trade_fee_denominator = 0 then .error .CalculationFailure
  else
    let fee := amount * f.trade_fee_numerator / f.trade_fee_denominator
    if fee ≤ U64_MAX then .ok fee else .error .CalculationFailure

/-- Modelled from the spec: `Fees::admin_trade_fee` of the missing `state.rs`
— `admin_trade_fee = trade_fee * admin_trade_fee_rate`, a cut of the fee, not
of principal (§4.4), truncating division. -/
def Fees.admin_trade_fee (f : Fees) (fee : Nat) : Except SwapError Nat :=
  if f.admin_trade_fee_denominator = 0 then .error .CalculationFailure
  else
    let a := fee * f.admin_trade_fee_numerator / f.admin_trade_fee_denominator
    if a ≤ U64_MAX then .ok a else .error .CalculationFailure

/-- Modelled from the spec: `PoolState::get_out_amount` of the missing
`curve.rs`/`state.rs` — solves the bonding curve for a one-sided trade
(§4.3).  The concrete curve realizes the spec's contract: with output-side
reserve O, market price P and slope k ∈ [0,1], the output is
O·v/(O + k·v) where v is the input valued in output-side units, so slope 0
prices exactly at the market price (peg-like) and slope 1 gives
constant-product-style price impact; division truncates (§4.1).  All
quantities are kept in WAD scale and cleared to a single fraction. -/
def PoolState.get_out_amount (s : PoolState) (amount_in : Nat)
    (direction : SwapDirection) : Nat :=
  match direction with
  | .SellBase =>
    s.quote_reserve.val * amount_in * s.market_price.val /
      (s.quote_reserve.val * WAD + s.slope.val * amount_in * s.market_price.val)
  | .SellQuote =>
    s.base_reserve.val * amount_in * WAD /
      (s.base_reserve.val * s.market_price.val + s.slope.val * amount_in * WAD)

/-- Modelled from the spec: `PoolState::swap` of the missing `state.rs` —
commits a trade: the input-side reserve increases by `amount_in`, the
output-side reserve decreases by the gross output (§4.3), in checked
`Decimal` arithmetic. -/
def PoolState.swap (s : PoolState) (amount_in amount_out : Nat)
    (direction : SwapDirection) : Except SwapError PoolState :=
  match direction with
  | .SellBase => do
    let b ← s.base_reserve.try_add (Decimal.from_nat amount_in)
    let q ← s.quote_reserve.try_sub (Decimal.from_nat amount_out)
    .ok { s with base_reserve := b, quote_reserve := q }
  | .SellQuote => do
    let q ← s.quote_reserve.try_add (Decimal.from_nat amount_in)
    let b ← s.base_reserve.try_sub (Decimal.from_nat amount_out)
    .ok { s with base_reserve := b, quote_reserve := q }

/-- Modelled from the spec: `check_swap_out_amount` of the missing `state.rs`
— rejects a trade whose output exceeds the configured percentage of the
output-side reserve (§4.3, §8), with an error distinct from the
caller-minimum slippage error (§8). -/
def check_swap_out_amount (s : PoolState) (swap_out_limit_percentage : Nat)
    (amount_out : Nat) (direction : SwapDirection) : Except SwapError Unit :=
  let reserve := match direction with
    | .SellBase => s.quote_reserve
    | .SellQuote => s.base_reserve
  if amount_out * WAD * 100 > swap_out_limit_percentage * reserve.val then
    .error .SwapOutLimitExceeded
  else .ok ()

/-- Checked `u64` subtraction surfaced as `CalculationFailure`, as the swap
path does for `receive_amount - trade_fee` (processor.rs:591-593). -/
def checked_sub_or_fail (a b : Nat) : Except SwapError Nat :=
  match u64_checked_sub a b with
  | none => .error .CalculationFailure
  | some d => .ok d

/-- Pricing-and-commit core of `process_swap` (processor.rs:584-613): quote
the curve, split fees, enforce the drain limit and the caller's minimum, then
commit `amount_in` against `amount_out + admin_fee`.  Returns the new pool
state, the trader's net payout and the admin fee. -/
def process_swap_core (s : PoolState) (fees : Fees)
    (swap_out_limit_percentage : Nat) (amount_in minimum_amount_out : Nat)
    (direction : SwapDirection) :
    Except SwapError (PoolState × Nat × Nat) := do
  let receive_amount := s.get_out_amount amount_in direction
  let trade_fee ← fees.trade_fee receive_amount
  let admin_fee ← fees.admin_trade_fee trade_fee
  let amount_out ← checked_sub_or_fail receive_amount trade_fee
  let _ ← check_swap_out_amount s swap_out_limit_percentage amount_out direction
  if amount_out < minimum_amount_out then .error .ExceededSlippage
  else do
    let s2 ← s.swap amount_in (amount_out + admin_fee) direction
    .ok (s2, amount_out, admin_fee)

/-- Modelled from the spec: `check_and_update_market_price_and_slot` of the
missing `state.rs` — rejects updates whose slot is not newer than
`last_valid_market_price_slot`, otherwise records the new price and slot
(§4.3). -/
def PoolState.check_and_update_market_price_and_slot (s : PoolState)
    (new_price : Decimal) (new_slot : Nat) : Except SwapError PoolState :=
  if new_slot ≤ s.last_valid_market_price_slot then
    .error .RejectedMarketPriceUpdate
  else
    .ok { s with last_market_price := new_price,
                 last_valid_market_price_slot := new_slot }

/-- Modelled from the spec: `set_market_price` of the missing `state.rs` —
re-bases an externally supplied price into the pool's internal unit
convention using the two token-decimal counts (§4.3). -/
def PoolState.set_market_price (s : PoolState)
    (base_decimals quote_decimals : Nat) (price : Decimal) :
    Except SwapError PoolState := do
  let scaled ← price.try_mul (Decimal.from_nat (10 ^ quote_decimals))
  let rebased ← scaled.try_div (Decimal.from_nat (10 ^ base_decimals))
  .ok { s with market_price := rebased }

/-- Oracle-consumption step of `process_swap` (processor.rs:569-582): a
successful resolution is checked against the replay guard and installed; a
failed resolution is returned as-is, making no state change. -/
def swap_price_resolution (oracle : Except SwapError (Decimal × Nat))
    (s : PoolState) (base_decimals quote_decimals : Nat) :
    Except SwapError PoolState :=
  match oracle with
  | .error e => .error e
  | .ok (market_price, valid_slot) => do
    let s1 ← s.check_and_update_market_price_and_slot market_price valid_slot
    s1.set_market_price base_decimals quote_decimals market_price

/-- Price-resolution step of `process_initialize` (processor.rs:378-399): a
failed oracle resolution is replaced by the caller-supplied `mid_price`
(reinterpreted as a scaled value) with the current slot; the pool state is
then created with `last_valid_market_price_slot = min(clock_slot,
valid_slot)`. -/
def initialize_pool_pricing (oracle : Except SwapError (Decimal × Nat))
    (mid_price : Nat) (clock_slot : Nat) (slope : Decimal) : PoolState :=
  let resolved := match oracle with
    | .ok r => r
    | .error _ => (Decimal.from_scaled_val mid_price, clock_slot)
  { market_price := resolved.1
    slope := slope
    base_reserve := Decimal.zero
    quote_reserve := Decimal.zero
    total_supply := 0
    last_market_price := resolved.1
    last_valid_market_price_slot := min clock_slot resolved.2 }

/-- Sample publisher price information with `Trading` status. -/
def price_info_trading : PriceInfo :=
  { price := 0, conf := 0, status := .Trading, pub_slot := 0 }

/-- Sample publisher component that counts as active. -/
def comp_trading : PriceComp :=
  { agg := price_info_trading, latest := price_info_trading }

/-- Sample Pyth price account from the spec's concrete test case (§8):
aggregate price 120_000_000, confidence 200_000, exponent -2, valid slot
150_000, three active publishers, previous price equal to the aggregate. -/
def pyth_sample : PythPrice :=
  { ptype := .Price
    expo := -2
    valid_slot := 150000
    prev_price := 120000000
    agg := { price := 120000000, conf := 200000, status := .Trading,
             pub_slot := 150000 }
    comp := [comp_trading, comp_trading, comp_trading] }

/-- Sample Pyth price account with a negative aggregate price. -/
def pyth_sample_neg : PythPrice :=
  { pyth_sample with
    agg := { price := -1, conf := 0, status := .Trading, pub_slot := 150000 } }

/-- Sample pool state: reserves of 1000 base and 1000 quote tokens, market
price 1, slope 0. -/
def pool_sample : PoolState :=
  { market_price := Decimal.one
    slope := Decimal.zero
    base_reserve := Decimal.from_nat 1000
    quote_reserve := Decimal.from_nat 1000
    total_supply := 1000
    last_market_price := Decimal.one
    last_valid_market_price_slot := 0 }

/-- Sample pool state with slope one half. -/
def pool_sample_sloped : PoolState :=
  { pool_sample with slope := Decimal.from_scaled_val (WAD / 2) }

/-- Sample fee schedule: 1% trade fee, all of it kept by the admin. -/
def fees_sample : Fees :=
  { trade_fee_numerator := 1
    trade_fee_denominator := 100
    admin_trade_fee_numerator := 1
    admin_trade_fee_denominator := 1
    withdraw_fee_numerator := 0
    withdraw_fee_denominator := 1
    admin_withdraw_fee_numerator := 0
    admin_withdraw_fee_denominator := 1 }

/-- Sample pool state after the sample swap: 100 base tokens in, 100 quote
tokens (net payout 99 plus admin fee 1) out. -/
def pool_sample_after_swap : PoolState :=
  { pool_sample with
    base_reserve := Decimal.from_scaled_val (1100 * WAD)
    quote_reserve := Decimal.from_scaled_val (900 * WAD) }

section HelperLemmas

/-- Bind of an ok value steps to the continuation. -/
theorem except_ok_bind {α β : Type} (a : α) (f : α → Except SwapError β) :
    (Except.ok a >>= f) = f a := rfl

/-- Bind of an error short-circuits. -/
theorem except_error_bind {α β : Type} (e : SwapError)
    (f : α → Except SwapError β) :
    ((Except.error e : Except SwapError α) >>= f) = .error e := rfl

/-- Case analysis for a failing `Except` bind. -/
theorem except_bind_eq_error {α β : Type} {x : Except SwapError α}
    {f : α → Except SwapError β} {e : SwapError} :
    (x >>= f) = .error e ↔
      x = .error e ∨ ∃ a, x = .ok a ∧ f a = .error e := by
  cases x <;> simp [Bind.bind, Except.bind]

/-- Every failure of the confidence guard is a calculation failure or the
low-confidence rejection. -/
theorem pyth_conf_check_error_cases {price conf : Nat} {e : SwapError}
    (h : pyth_conf_check price conf = .error e) :
    e = .CalculationFailure ∨ e = .InconfidentPythPrice := by
  unfold pyth_conf_check at h
  split at h
  · split at h
    · simp_all
    · split at h <;> simp_all
  · simp_all

/-- Every failure of the volatility guard is a calculation failure or the
volatility rejection. -/
theorem pyth_vol_check_error_cases {p : PythPrice} {e : SwapError}
    (h : pyth_vol_check p = .error e) :
    e = .CalculationFailure ∨ e = .UnstableMarketPrice := by
  unfold pyth_vol_check at h
  split at h
  · simp_all
  · split at h
    · simp_all
    · split at h <;> simp_all

/-- Every failure of the exponent normalization is a calculation failure. -/
theorem pyth_normalize_error_cases {price : Nat} {expo : Int} {e : SwapError}
    (h : pyth_normalize price expo = .error e) : e = .CalculationFailure := by
  unfold pyth_normalize Decimal.try_mul Decimal.try_div at h
  split at h
  · split at h
    · simp_all
    · split at h <;> simp_all
  · split at h
    · simp_all
    · split at h
      · simp_all
      · split at h
        · simp_all
        · split at h <;> simp_all

/-- Every failure of the guard-and-normalize tail is a calculation failure,
the low-confidence rejection or the volatility rejection. -/
theorem pyth_price_tail_error_cases {p : PythPrice} {slot : Nat}
    {e : SwapError} (h : pyth_price_tail p slot = .error e) :
    e = .CalculationFailure ∨ e = .InconfidentPythPrice ∨
      e = .UnstableMarketPrice := by
  unfold pyth_price_tail at h
  rw [except_bind_eq_error] at h
  rcases h with h | ⟨a, ha, h⟩
  · rcases pyth_conf_check_error_cases h with h | h <;> simp [h]
  · rw [except_bind_eq_error] at h
    rcases h with h | ⟨b, hb, h⟩
    · rcases pyth_vol_check_error_cases h with h | h <;> simp [h]
    · rw [except_bind_eq_error] at h
      rcases h with h | ⟨c, hc, h⟩
      · simp [pyth_normalize_error_cases h]
      · simp [pure, Except.pure] at h

/-- When the structural, staleness and sign checks pass, `get_pyth_price`
reduces to its guard-and-normalize tail. -/
theorem get_pyth_price_reaches_tail {p : PythPrice} {slot : Nat}
    (hty : p.ptype = PriceType.Price)
    (hst : p.agg.status = PriceStatus.Trading)
    (hq : 3 ≤ (p.comp.filter PriceComp.is_active).length)
    (hslot : p.valid_slot ≤ slot)
    (hfresh : slot - p.valid_slot < 10)
    (hsign : 0 ≤ p.agg.price) :
    get_pyth_price p slot = pyth_price_tail p slot := by
  unfold get_pyth_price
  rw [if_neg (by simp [hty]), if_neg (by simp [hst]), if_neg (by omega)]
  simp only [u64_checked_sub, if_pos hslot]
  rw [if_neg (by omega), if_neg (by omega)]

end HelperLemmas

/-- C5: for a Pyth account passing the structural and status checks,
resolution fails with `StalePythPrice` exactly when
`slots_elapsed = current_slot - valid_slot` is at least 10, and when
`valid_slot` exceeds `current_slot` the checked subtraction fails with
`CalculationFailure`. -/
theorem c5_staleness_guard (p : PythPrice) (slot : Nat)
    (hty : p.ptype = PriceType.Price)
    (hst : p.agg.status = PriceStatus.Trading)
    (hq : 3 ≤ (p.comp.filter PriceComp.is_active).length) :
    (p.valid_slot ≤ slot →
      (get_pyth_price p slot = .error .StalePythPrice ↔
        10 ≤ slot - p.valid_slot))
    ∧ (slot < p.valid_slot →
      get_pyth_price p slot = .error .CalculationFailure) := by
  constructor
  · intro hslot
    unfold get_pyth_price
    rw [if_neg (by simp [hty]), if_neg (by simp [hst]), if_neg (by omega)]
    simp only [u64_checked_sub, if_pos hslot]
    by_cases h10 : 10 ≤ slot - p.valid_slot
    · rw [if_pos h10]
      simp [h10]
    · rw [if_neg h10]
      simp only [h10, iff_false]
      by_cases hneg : p.agg.price < 0
      · rw [if_pos hneg]
        simp
      · rw [if_neg hneg]
        intro hcontra
        rcases pyth_price_tail_error_cases hcontra with h | h | h <;>
          exact SwapError.noConfusion h
  · intro hlt
    unfold get_pyth_price
    rw [if_neg (by simp [hty]), if_neg (by simp [hst]), if_neg (by omega)]
    simp only [u64_checked_sub, if_neg (by omega : ¬ p.valid_slot ≤ slot)]

/-- Witness for C5 at the sample account: one slot behind is not stale, and
the subtraction branch is vacuous. -/
theorem c5_staleness_guard_witness :
    ((150000 : Nat) ≤ 150001 →
      (get_pyth_price pyth_sample 150001 = .error .StalePythPrice ↔
        10 ≤ 150001 - 150000))
    ∧ (150001 < 150000 →
      get_pyth_price pyth_sample 150001 = .error .CalculationFailure) :=
  c5_staleness_guard pyth_sample 150001 (by decide) (by decide) (by decide)

/-- C10: a Pyth account whose aggregate price is negative is rejected with
`InvalidPythConfig` after the type, status, quorum and staleness checks; the
negative price is never normalized into a market price. -/
theorem c10_negative_price_rejected (p : PythPrice) (slot : Nat)
    (hty : p.ptype = PriceType.Price)
    (hst : p.agg.status = PriceStatus.Trading)
    (hq : 3 ≤ (p.comp.filter PriceComp.is_active).length)
    (hslot : p.valid_slot ≤ slot)
    (hfresh : slot - p.valid_slot < 10)
    (hneg : p.agg.price < 0) :
    get_pyth_price p slot = .error .InvalidPythConfig := by
  unfold get_pyth_price
  rw [if_neg (by simp [hty]), if_neg (by simp [hst]), if_neg (by omega)]
  simp only [u64_checked_sub, if_pos hslot]
  rw [if_neg (by omega), if_pos hneg]

/-- Witness for C10 at the sample account with aggregate price -1. -/
theorem c10_negative_price_rejected_witness :
    get_pyth_price pyth_sample_neg 150001 = .error .InvalidPythConfig :=
  c10_negative_price_rejected pyth_sample_neg 150001 (by decide) (by decide)
    (by decide) (by decide) (by decide) (by decide)

/-- C6: for a Pyth account passing the earlier checks with a non-negative
aggregate price (and the 50x product within u64 range), resolution fails with
`InconfidentPythPrice` exactly when `confidence > price / 50`; in particular
confidence 0 always passes. -/
theorem c6_confidence_guard (p : PythPrice) (slot : Nat)
    (hty : p.ptype = PriceType.Price)
    (hst : p.agg.status = PriceStatus.Trading)
    (hq : 3 ≤ (p.comp.filter PriceComp.is_active).length)
    (hslot : p.valid_slot ≤ slot)
    (hfresh : slot - p.valid_slot < 10)
    (hsign : 0 ≤ p.agg.price)
    (hnoof : p.agg.conf * 50 ≤ U64_MAX) :
    (get_pyth_price p slot = .error .InconfidentPythPrice ↔
      p.agg.price.toNat / 50 < p.agg.conf) := by
  rw [get_pyth_price_reaches_tail hty hst hq hslot hfresh hsign]
  simp only [pyth_price_tail]
  constructor
  · intro h
    rw [except_bind_eq_error] at h
    rcases h with h | ⟨a, ha, h⟩
    · unfold pyth_conf_check at h
      split at h
      case isTrue hpos =>
        simp only [u64_checked_mul, if_pos hnoof] at h
        split at h
        case isTrue hlt => exact (Nat.div_lt_iff_lt_mul (by norm_num)).mpr hlt
        case isFalse hge => exact absurd h (by simp)
      case isFalse hz => exact absurd h (by simp)
    · rw [except_bind_eq_error] at h
      rcases h with h | ⟨b, hb, h⟩
      · rcases pyth_vol_check_error_cases h with h | h <;>
          exact SwapError.noConfusion h
      · rw [except_bind_eq_error] at h
        rcases h with h | ⟨c, hc, h⟩
        · exact SwapError.noConfusion (pyth_normalize_error_cases h)
        · simp [pure, Except.pure] at h
  · intro hlt
    have hpos : 0 < p.agg.conf := lt_of_le_of_lt (Nat.zero_le _) hlt
    have hl : p.agg.price.toNat < p.agg.conf * 50 :=
      (Nat.div_lt_iff_lt_mul (by norm_num)).mp hlt
    have hcc : pyth_conf_check p.agg.price.toNat p.agg.conf =
        .error .InconfidentPythPrice := by
      unfold pyth_conf_check
      rw [if_pos hpos]
      simp only [u64_checked_mul, if_pos hnoof]
      rw [if_pos hl]
    rw [hcc]
    rfl

/-- Witness for C6 at the sample account: confidence 200_000 against price
120_000_000 is within 2%, so the guard passes. -/
theorem c6_confidence_guard_witness :
    get_pyth_price pyth_sample 150001 = .error .InconfidentPythPrice ↔
      pyth_sample.agg.price.toNat / 50 < pyth_sample.agg.conf :=
  c6_confidence_guard pyth_sample 150001 (by decide) (by decide) (by decide)
    (by decide) (by decide) (by decide) (by decide)

/-- C4: for a Pyth account passing the type, status, quorum, staleness, sign
and confidence checks (with the checked i64 operations in range), resolution
fails with `UnstableMarketPrice` exactly when the aggregate price is less
than 100 times the absolute deviation from the previous aggregate price. -/
theorem c4_volatility_guard (p : PythPrice) (slot : Nat)
    (hty : p.ptype = PriceType.Price)
    (hst : p.agg.status = PriceStatus.Trading)
    (hq : 3 ≤ (p.comp.filter PriceComp.is_active).length)
    (hslot : p.valid_slot ≤ slot)
    (hfresh : slot - p.valid_slot < 10)
    (hsign : 0 ≤ p.agg.price)
    (hconf : pyth_conf_check p.agg.price.toNat p.agg.conf = .ok ())
    (hd1 : I64_MIN ≤ p.prev_price - p.agg.price)
    (hd2 : p.prev_price - p.agg.price ≤ I64_MAX)
    (hm : ((p.prev_price - p.agg.price).natAbs : Int) * 100 ≤ I64_MAX) :
    (get_pyth_price p slot = .error .UnstableMarketPrice ↔
      p.agg.price < 100 * ((p.prev_price - p.agg.price).natAbs : Int)) := by
  rw [get_pyth_price_reaches_tail hty hst hq hslot hfresh hsign]
  simp only [pyth_price_tail]
  rw [hconf]
  have h0 : (0 : Int) ≤ ((p.prev_price - p.agg.price).natAbs : Int) * 100 := by
    positivity
  have hlow : I64_MIN ≤ ((p.prev_price - p.agg.price).natAbs : Int) * 100 :=
    le_trans (by norm_num [I64_MIN]) h0
  have hvol : pyth_vol_check p =
      (if p.agg.price < ((p.prev_price - p.agg.price).natAbs : Int) * 100
        then .error .UnstableMarketPrice else .ok ()) := by
    unfold pyth_vol_check
    simp only [i64_checked_sub, if_pos (And.intro hd1 hd2)]
    simp only [i64_checked_mul, if_pos (And.intro hlow hm)]
  by_cases hcond :
      p.agg.price < ((p.prev_price - p.agg.price).natAbs : Int) * 100
  · rw [if_pos hcond] at hvol
    refine iff_of_true ?_ (by rw [Int.mul_comm]; exact hcond)
    simp only [Bind.bind, Except.bind, hvol]
  · rw [if_neg hcond] at hvol
    simp only [Bind.bind, Except.bind, hvol]
    rw [Int.mul_comm] at hcond
    simp only [hcond, iff_false]
    intro h
    rcases hn : pyth_normalize p.agg.price.toNat p.expo with e | d
    · have hce := pyth_normalize_error_cases hn
      rw [hn] at h
      simp only [Except.error.injEq] at h
      rw [hce] at h
      exact SwapError.noConfusion h
    · rw [hn] at h
      simp [pure, Except.pure] at h

/-- Witness for C4 at the sample account: the previous price equals the
aggregate price, so the deviation is zero and the guard passes. -/
theorem c4_volatility_guard_witness :
    get_pyth_price pyth_sample 150001 = .error .UnstableMarketPrice ↔
      pyth_sample.agg.price <
        100 * ((pyth_sample.prev_price - pyth_sample.agg.price).natAbs : Int) :=
  c4_volatility_guard pyth_sample 150001 (by decide) (by decide) (by decide)
    (by decide) (by decide) (by decide) (by rfl) (by decide) (by decide)
    (by decide)

/-- C8: the spec's concrete Pyth case — aggregate price 120_000_000 with
confidence 200_000 and exponent -2 at current slot 150_001 and valid slot
150_000 resolves to the Decimal value 1_200_000 with valid slot 150_000. -/
theorem c8_concrete_resolution :
    get_pyth_price pyth_sample 150001 =
      .ok (Decimal.from_nat 1200000, 150000) := by
  rfl

/-- C3: oracle failure is treated asymmetrically — during Initialize a failed
resolution is replaced by the caller-supplied `mid_price` with the current
slot as the valid slot and the pool is still created, while during a swap a
failed resolution is returned as the swap's error with no state produced. -/
theorem c3_oracle_failure_asymmetry (e : SwapError)
    (mid_price clock_slot : Nat) (slope : Decimal) (s : PoolState)
    (base_decimals quote_decimals : Nat) :
    (initialize_pool_pricing (.error e) mid_price clock_slot slope).market_price
        = Decimal.from_scaled_val mid_price
    ∧ (initialize_pool_pricing (.error e) mid_price clock_slot
        slope).last_valid_market_price_slot = clock_slot
    ∧ swap_price_resolution (.error e) s base_decimals quote_decimals
        = .error e := by
  refine ⟨rfl, ?_, rfl⟩
  simp [initialize_pool_pricing]

/-- C9: `calculate_serum_market_price` computes the scaled value of
`((bids + asks) / 2) * quote_lot_size * 10^base_decimals /
(base_lot_size * 10^quote_decimals)` with truncating Decimal arithmetic,
whenever the checked powers and products stay in range. -/
theorem c9_serum_price_formula (base_lot quote_lot bids asks bd qd : Nat)
    (hbd : 10 ^ bd ≤ U64_MAX) (hqd : 10 ^ qd ≤ U64_MAX) (hbl : 0 < base_lot)
    (h1 : (bids + asks) * WAD ≤ U192_MAX)
    (h2 : (bids + asks) * WAD * WAD ≤ U192_MAX)
    (h3 : quote_lot * WAD * (10 ^ bd * WAD) ≤ U192_MAX)
    (h4 : base_lot * WAD * (10 ^ qd * WAD) ≤ U192_MAX)
    (h5 : (bids + asks) * (WAD / 2) * (quote_lot * 10 ^ bd * WAD) ≤ U192_MAX)
    (h6 : (bids + asks) * (WAD / 2) * (quote_lot * 10 ^ bd) * WAD ≤ U192_MAX) :
    calculate_serum_market_price base_lot quote_lot bids asks bd qd =
      .ok ⟨(bids + asks) * (WAD / 2) * (quote_lot * 10 ^ bd) /
        (base_lot * 10 ^ qd)⟩ := by
  have hW : 0 < WAD := by norm_num [WAD]
  have e1 : (Decimal.from_nat bids).try_add (Decimal.from_nat asks) =
      .ok ⟨(bids + asks) * WAD⟩ := by
    unfold Decimal.try_add Decimal.from_nat
    rw [if_pos (by rw [← Nat.add_mul]; exact h1)]
    rw [← Nat.add_mul]
  have e2 : (Decimal.mk ((bids + asks) * WAD)).try_div (Decimal.from_nat 2) =
      .ok ⟨(bids + asks) * (WAD / 2)⟩ := by
    unfold Decimal.try_div Decimal.from_nat
    rw [if_neg (by positivity), if_pos h2]
    congr 1
    rw [Nat.mul_div_mul_right _ _ hW,
      Nat.mul_div_assoc _ (by norm_num [WAD] : (2 : Nat) ∣ WAD)]
  have e3 : (Decimal.from_nat quote_lot).try_mul
      (Decimal.from_nat (10 ^ bd)) = .ok ⟨quote_lot * 10 ^ bd * WAD⟩ := by
    unfold Decimal.try_mul Decimal.from_nat
    rw [if_pos h3]
    congr 1
    rw [show quote_lot * WAD * (10 ^ bd * WAD) =
      quote_lot * 10 ^ bd * WAD * WAD by ring]
    rw [Nat.mul_div_cancel _ hW]
  have e4 : (Decimal.from_nat base_lot).try_mul
      (Decimal.from_nat (10 ^ qd)) = .ok ⟨base_lot * 10 ^ qd * WAD⟩ := by
    unfold Decimal.try_mul Decimal.from_nat
    rw [if_pos h4]
    congr 1
    rw [show base_lot * WAD * (10 ^ qd * WAD) =
      base_lot * 10 ^ qd * WAD * WAD by ring]
    rw [Nat.mul_div_cancel _ hW]
  have e5 : (Decimal.mk ((bids + asks) * (WAD / 2))).try_mul
      ⟨quote_lot * 10 ^ bd * WAD⟩ =
      .ok ⟨(bids + asks) * (WAD / 2) * (quote_lot * 10 ^ bd)⟩ := by
    unfold Decimal.try_mul
    rw [if_pos h5]
    congr 1
    rw [show (bids + asks) * (WAD / 2) * (quote_lot * 10 ^ bd * WAD) =
      (bids + asks) * (WAD / 2) * (quote_lot * 10 ^ bd) * WAD by ring]
    rw [Nat.mul_div_cancel _ hW]
  have e6 : (Decimal.mk ((bids + asks) * (WAD / 2) * (quote_lot * 10 ^ bd))).try_div
      ⟨base_lot * 10 ^ qd * WAD⟩ =
      .ok ⟨(bids + asks) * (WAD / 2) * (quote_lot * 10 ^ bd) /
        (base_lot * 10 ^ qd)⟩ := by
    unfold Decimal.try_div
    rw [if_neg (by positivity), if_pos h6]
    congr 1
    rw [Nat.mul_div_mul_right _ _ hW]
  unfold calculate_serum_market_price
  simp only [u64_checked_pow, if_pos hbd, if_pos hqd]
  rw [e1, except_ok_bind, e2, except_ok_bind, e3, except_ok_bind, e4,
    except_ok_bind, e5, except_ok_bind, e6]

/-- Witness for C9: the spec's concrete case, lot sizes 10 and 100_000, top
bid 3600, top ask 3587, decimals 6 and 9, evaluates to the Decimal value
35935. -/
theorem c9_serum_price_formula_witness :
    calculate_serum_market_price 10 100000 3600 3587 6 9 =
      .ok (Decimal.from_nat 35935) := by
  rw [c9_serum_price_formula 10 100000 3600 3587 6 9 (by decide) (by decide)
    (by decide) (by decide) (by decide) (by decide) (by decide) (by decide)
    (by decide)]
  rfl

/-- A successful checked subtraction certifies order and value. -/
theorem checked_sub_or_fail_ok {a b c : Nat}
    (h : checked_sub_or_fail a b = .ok c) : b ≤ a ∧ c = a - b := by
  unfold checked_sub_or_fail at h
  cases hs : u64_checked_sub a b with
  | none => rw [hs] at h; exact Except.noConfusion h
  | some d =>
    rw [hs] at h
    simp only [Except.ok.injEq] at h
    unfold u64_checked_sub at hs
    split at hs
    case isTrue hba =>
      simp only [Option.some.injEq] at hs
      exact ⟨hba, by omega⟩
    case isFalse hba => exact Option.noConfusion hs

/-- A successful Decimal addition is exact on scaled values. -/
theorem try_add_ok {a b c : Decimal} (h : a.try_add b = .ok c) :
    c.val = a.val + b.val := by
  unfold Decimal.try_add at h
  split at h
  · simp only [Except.ok.injEq] at h
    rw [← h]
  · exact Except.noConfusion h

/-- A successful Decimal subtraction is exact on scaled values and certifies
that no underflow occurred. -/
theorem try_sub_ok {a b c : Decimal} (h : a.try_sub b = .ok c) :
    b.val ≤ a.val ∧ c.val = a.val - b.val := by
  unfold Decimal.try_sub at h
  split at h
  case isTrue hle =>
    simp only [Except.ok.injEq] at h
    exact ⟨hle, by rw [← h]⟩
  case isFalse hle => exact Except.noConfusion h

/-- A failing Decimal addition is a calculation failure. -/
theorem try_add_error {a b : Decimal} {e : SwapError}
    (h : a.try_add b = .error e) : e = .CalculationFailure := by
  unfold Decimal.try_add at h
  split at h <;> simp_all

/-- A failing Decimal subtraction is a calculation failure. -/
theorem try_sub_error {a b : Decimal} {e : SwapError}
    (h : a.try_sub b = .error e) : e = .CalculationFailure := by
  unfold Decimal.try_sub at h
  split at h <;> simp_all

/-- Every failure of the reserve commit is a calculation failure. -/
theorem pool_swap_error_cases {s : PoolState} {ain aout : Nat}
    {dir : SwapDirection} {e : SwapError}
    (h : PoolState.swap s ain aout dir = .error e) :
    e = .CalculationFailure := by
  cases dir
  case SellBase =>
    simp only [PoolState.swap] at h
    rw [except_bind_eq_error] at h
    rcases h with h | ⟨x, hx, h⟩
    · exact try_add_error h
    · rw [except_bind_eq_error] at h
      rcases h with h | ⟨y, hy, h⟩
      · exact try_sub_error h
      · exact Except.noConfusion h
  case SellQuote =>
    simp only [PoolState.swap] at h
    rw [except_bind_eq_error] at h
    rcases h with h | ⟨x, hx, h⟩
    · exact try_add_error h
    · rw [except_bind_eq_error] at h
      rcases h with h | ⟨y, hy, h⟩
      · exact try_sub_error h
      · exact Except.noConfusion h

/-- Division comparison by cross multiplication. -/
theorem nat_div_le_div_of_cross {n1 d1 n2 d2 : Nat} (h1 : 0 < d1)
    (h2 : 0 < d2) (h : n1 * d2 ≤ n2 * d1) : n1 / d1 ≤ n2 / d2 := by
  rw [Nat.le_div_iff_mul_le h2]
  have key : n1 / d1 * d2 * d1 ≤ n2 * d1 := by
    calc n1 / d1 * d2 * d1 = n1 / d1 * d1 * d2 := by ring
      _ ≤ n1 * d2 := Nat.mul_le_mul_right d2 (Nat.div_mul_le_self n1 d1)
      _ ≤ n2 * d1 := h
  exact Nat.le_of_mul_le_mul_right key h1

/-- Monotonicity of the one-sided curve fraction
`O*a*u / (O*v + k*a*u)` in the trade size `a`. -/
theorem curve_out_mono (O u v k a b : Nat) (hab : a ≤ b) :
    O * a * u / (O * v + k * a * u) ≤ O * b * u / (O * v + k * b * u) := by
  rcases Nat.eq_zero_or_pos u with hu | hu
  · simp [hu]
  rcases Nat.eq_zero_or_pos O with hO | hO
  · simp [hO]
  rcases Nat.eq_zero_or_pos v with hv | hv
  · subst hv
    rcases Nat.eq_zero_or_pos a with ha | ha
    · simp [ha]
    have hb : 0 < b := lt_of_lt_of_le ha hab
    have hcancel : ∀ x : Nat, 0 < x →
        O * x * u / (O * 0 + k * x * u) = O / k := by
      intro x hx
      rw [Nat.mul_zero, Nat.zero_add,
        show O * x * u = O * (x * u) by ring,
        show k * x * u = k * (x * u) by ring]
      exact Nat.mul_div_mul_right O k (Nat.mul_pos hx hu)
    rw [hcancel a ha, hcancel b hb]
  · have hd1 : 0 < O * v + k * a * u :=
      Nat.lt_of_lt_of_le (Nat.mul_pos hO hv) (Nat.le_add_right _ _)
    have hd2 : 0 < O * v + k * b * u :=
      Nat.lt_of_lt_of_le (Nat.mul_pos hO hv) (Nat.le_add_right _ _)
    apply nat_div_le_div_of_cross hd1 hd2
    have hfst : O * a * u * (O * v) ≤ O * b * u * (O * v) :=
      Nat.mul_le_mul_right _
        (Nat.mul_le_mul_right u (Nat.mul_le_mul_left O hab))
    calc O * a * u * (O * v + k * b * u)
        = O * a * u * (O * v) + O * a * u * (k * b * u) := by ring
      _ ≤ O * b * u * (O * v) + O * a * u * (k * b * u) :=
          Nat.add_le_add_right hfst _
      _ = O * b * u * (O * v) + O * b * u * (k * a * u) := by ring
      _ = O * b * u * (O * v + k * a * u) := by ring

/-- C2: for every pool state with slope in [0,1] and both directions, the
curve produces 0 output for 0 input and is monotonically non-decreasing in
the input amount. -/
theorem c2_curve_zero_and_monotone (s : PoolState) (dir : SwapDirection)
    (hk : s.slope.val ≤ WAD) (a b : Nat) (hab : a ≤ b) :
    s.get_out_amount 0 dir = 0 ∧
      s.get_out_amount a dir ≤ s.get_out_amount b dir := by
  constructor
  · cases dir <;> simp [PoolState.get_out_amount]
  · cases dir
    case SellBase =>
      exact curve_out_mono s.quote_reserve.val s.market_price.val WAD
        s.slope.val a b hab
    case SellQuote =>
      exact curve_out_mono s.base_reserve.val WAD s.market_price.val
        s.slope.val a b hab

/-- Witness for C2 at the sample pool with slope one half. -/
theorem c2_curve_zero_and_monotone_witness :
    pool_sample_sloped.get_out_amount 0 .SellBase = 0 ∧
      pool_sample_sloped.get_out_amount 3 .SellBase ≤
        pool_sample_sloped.get_out_amount 5 .SellBase :=
  c2_curve_zero_and_monotone pool_sample_sloped .SellBase (by decide) 3 5
    (by decide)

/-- C1: a successful swap commit moves the reserves exactly — the input-side
reserve grows by `amount_in` and the output-side reserve shrinks by
`amount_out + admin_fee`, where `amount_out = receive_amount - trade_fee`,
`trade_fee = trade_fee(receive_amount)` and
`admin_fee = admin_trade_fee(trade_fee)`, all in exact scaled fixed-point. -/
theorem c1_swap_commit_conservation (s : PoolState) (fees : Fees)
    (pct amount_in min_out : Nat) (dir : SwapDirection) (s2 : PoolState)
    (amount_out admin_fee : Nat)
    (h : process_swap_core s fees pct amount_in min_out dir =
      .ok (s2, amount_out, admin_fee)) :
    ∃ trade_fee,
      fees.trade_fee (s.get_out_amount amount_in dir) = .ok trade_fee ∧
      fees.admin_trade_fee trade_fee = .ok admin_fee ∧
      amount_out + trade_fee = s.get_out_amount amount_in dir ∧
      (dir = .SellBase →
        s2.base_reserve.val = s.base_reserve.val + amount_in * WAD ∧
        s2.quote_reserve.val + (amount_out + admin_fee) * WAD
          = s.quote_reserve.val) ∧
      (dir = .SellQuote →
        s2.quote_reserve.val = s.quote_reserve.val + amount_in * WAD ∧
        s2.base_reserve.val + (amount_out + admin_fee) * WAD
          = s.base_reserve.val) := by
  simp only [process_swap_core] at h
  cases h1 : fees.trade_fee (s.get_out_amount amount_in dir) with
  | error e => rw [h1, except_error_bind] at h; exact Except.noConfusion h
  | ok tf =>
  rw [h1, except_ok_bind] at h
  cases h2 : fees.admin_trade_fee tf with
  | error e => rw [h2, except_error_bind] at h; exact Except.noConfusion h
  | ok af =>
  rw [h2, except_ok_bind] at h
  cases h3 : checked_sub_or_fail (s.get_out_amount amount_in dir) tf with
  | error e => rw [h3, except_error_bind] at h; exact Except.noConfusion h
  | ok outc =>
  rw [h3, except_ok_bind] at h
  obtain ⟨htle, houtc⟩ := checked_sub_or_fail_ok h3
  cases h4 : check_swap_out_amount s pct outc dir with
  | error e => rw [h4, except_error_bind] at h; exact Except.noConfusion h
  | ok u =>
  rw [h4, except_ok_bind] at h
  by_cases h5 : outc < min_out
  · rw [if_pos h5] at h; exact Except.noConfusion h
  rw [if_neg h5] at h
  cases dir with
  | SellBase =>
    simp only [PoolState.swap] at h
    cases h6 : s.base_reserve.try_add (Decimal.from_nat amount_in) with
    | error e => rw [h6, except_error_bind] at h; exact Except.noConfusion h
    | ok nb =>
    rw [h6, except_ok_bind] at h
    cases h7 : s.quote_reserve.try_sub (Decimal.from_nat (outc + af)) with
    | error e => rw [h7, except_error_bind] at h; exact Except.noConfusion h
    | ok nq =>
    rw [h7, except_ok_bind, except_ok_bind] at h
    simp only [Except.ok.injEq, Prod.mk.injEq] at h
    obtain ⟨hs2, hout, haf⟩ := h
    obtain ⟨hqle, hnq⟩ := try_sub_ok h7
    have hnb := try_add_ok h6
    simp only [Decimal.from_nat] at hnb hnq hqle
    refine ⟨tf, rfl, haf ▸ h2, by omega, fun _ => ?_,
      fun hc => SwapDirection.noConfusion hc⟩
    rw [← hs2]
    refine ⟨by simpa using hnb, ?_⟩
    show nq.val + (amount_out + admin_fee) * WAD = s.quote_reserve.val
    rw [← hout, ← haf, hnq]
    exact Nat.sub_add_cancel hqle
  | SellQuote =>
    simp only [PoolState.swap] at h
    cases h6 : s.quote_reserve.try_add (Decimal.from_nat amount_in) with
    | error e => rw [h6, except_error_bind] at h; exact Except.noConfusion h
    | ok nq =>
    rw [h6, except_ok_bind] at h
    cases h7 : s.base_reserve.try_sub (Decimal.from_nat (outc + af)) with
    | error e => rw [h7, except_error_bind] at h; exact Except.noConfusion h
    | ok nb =>
    rw [h7, except_ok_bind, except_ok_bind] at h
    simp only [Except.ok.injEq, Prod.mk.injEq] at h
    obtain ⟨hs2, hout, haf⟩ := h
    obtain ⟨hble, hnb⟩ := try_sub_ok h7
    have hnq := try_add_ok h6
    simp only [Decimal.from_nat] at hnb hnq hble
    refine ⟨tf, rfl, haf ▸ h2, by omega,
      fun hc => SwapDirection.noConfusion hc, fun _ => ?_⟩
    rw [← hs2]
    refine ⟨by simpa using hnq, ?_⟩
    show nb.val + (amount_out + admin_fee) * WAD = s.base_reserve.val
    rw [← hout, ← haf, hnb]
    exact Nat.sub_add_cancel hble

/-- Witness for C1: a concrete successful commit on the sample pool — 100
base tokens in, receive 100, trade fee 1, admin fee 1, net payout 99; the
base reserve grows by exactly 100 and the quote reserve shrinks by exactly
100 in scaled units. -/
theorem c1_swap_commit_conservation_witness :
    process_swap_core pool_sample fees_sample 10 100 0 .SellBase =
      .ok (pool_sample_after_swap, 99, 1) ∧
    ∃ trade_fee,
      fees_sample.trade_fee (pool_sample.get_out_amount 100 .SellBase) =
        .ok trade_fee ∧
      fees_sample.admin_trade_fee trade_fee = .ok 1 ∧
      99 + trade_fee = pool_sample.get_out_amount 100 .SellBase ∧
      (SwapDirection.SellBase = .SellBase →
        pool_sample_after_swap.base_reserve.val =
          pool_sample.base_reserve.val + 100 * WAD ∧
        pool_sample_after_swap.quote_reserve.val + (99 + 1) * WAD
          = pool_sample.quote_reserve.val) ∧
      (SwapDirection.SellBase = .SellQuote →
        pool_sample_after_swap.quote_reserve.val =
          pool_sample.quote_reserve.val + 100 * WAD ∧
        pool_sample_after_swap.base_reserve.val + (99 + 1) * WAD
          = pool_sample.base_reserve.val) :=
  ⟨rfl, c1_swap_commit_conservation pool_sample fees_sample 10 100 0
    .SellBase pool_sample_after_swap 99 1 rfl⟩

/-- C7: in the swap pipeline, once the fee computation succeeds and the
drain-limit check passes, `ExceededSlippage` is returned exactly when the
computed `amount_out = receive_amount - trade_fee` is strictly below the
caller-supplied minimum, and never otherwise. -/
theorem c7_slippage_guard (s : PoolState) (fees : Fees)
    (pct amount_in min_out : Nat) (dir : SwapDirection) (tf af : Nat)
    (h1 : fees.trade_fee (s.get_out_amount amount_in dir) = .ok tf)
    (h2 : fees.admin_trade_fee tf = .ok af)
    (h3 : tf ≤ s.get_out_amount amount_in dir)
    (h4 : check_swap_out_amount s pct
      (s.get_out_amount amount_in dir - tf) dir = .ok ()) :
    (process_swap_core s fees pct amount_in min_out dir =
        .error .ExceededSlippage
      ↔ s.get_out_amount amount_in dir - tf < min_out) := by
  simp only [process_swap_core]
  rw [h1, except_ok_bind, h2, except_ok_bind]
  have hcs : checked_sub_or_fail (s.get_out_amount amount_in dir) tf =
      .ok (s.get_out_amount amount_in dir - tf) := by
    unfold checked_sub_or_fail u64_checked_sub
    rw [if_pos h3]
  rw [hcs, except_ok_bind, h4, except_ok_bind]
  by_cases h5 : s.get_out_amount amount_in dir - tf < min_out
  · rw [if_pos h5]
    exact iff_of_true rfl h5
  · rw [if_neg h5]
    refine iff_of_false ?_ h5
    intro h
    rw [except_bind_eq_error] at h
    rcases h with h | ⟨x, hx, h⟩
    · exact SwapError.noConfusion (pool_swap_error_cases h)
    · exact Except.noConfusion h

/-- Witness for C7: on the sample pool with minimum 1000 and computed payout
99, the pipeline returns exactly `ExceededSlippage`. -/
theorem c7_slippage_guard_witness :
    process_swap_core pool_sample fees_sample 10 100 1000 .SellBase =
        .error .ExceededSlippage
      ↔ pool_sample.get_out_amount 100 .SellBase - 1 < 1000 :=
  c7_slippage_guard pool_sample fees_sample 10 100 1000 .SellBase 1 1
    rfl rfl (by decide) rfl
